import Mathlib

/-!
# Verification of the github-app-example webhook gateway

This development embeds the program of `src/index.js` together with the
components it composes: the source file is a thin glue layer over a
webhook-signature verifier, an event router, an installation-token cache
and an HTTP gateway, which live in the external libraries
`github-webhook-handler` and `github-integration` and are therefore
modelled from the specification (each such definition is marked
`Modelled from the spec:`).  The `issues` handler and the startup
configuration are translated directly from `src/index.js`.
-/

namespace GitHubApp

/-! ## Signature verifier (spec §4.1) -/

/-- Comparison of two character lists without early exit: the length check
and a full mismatch count over the zipped lists, mirroring a constant-time
comparison (no position-dependent short-circuit).  Functionally it decides
equality. -/
def ctEqList (xs ys : List Char) : Bool :=
  (xs.length == ys.length) &&
    ((xs.zip ys).countP (fun p => p.1 != p.2) == 0)

/-- Modelled from the spec: §4.1's keyed hash over the raw body.  The
concrete digest algorithm (HMAC with SHA-1/SHA-256) is supplied by the
platform and is external to this repository; it is idealized here as an
injective keyed function — the spec's testable properties (§8) assume the
digest is collision-free on the inputs considered. -/
def hmacDigest (secret body : String) : List Char :=
  (toString secret.length).data ++ [':'] ++ secret.data ++ body.data

/-- Modelled from the spec: the signature header value the platform sends,
an algorithm tag `sha1=` followed by the digest (§4.1). -/
def sign (body secret : String) : String :=
  String.mk ('s' :: 'h' :: 'a' :: '1' :: '=' :: hmacDigest secret body)

/-- Strip the `sha1=` algorithm tag from a signature header; `none` when
the header is malformed (tag absent). -/
def sigTagged : List Char → Option (List Char)
  | 's' :: 'h' :: 'a' :: '1' :: '=' :: rest => some rest
  | _ => none

/-- Modelled from the spec: §4.1 `verify(rawBody, signatureHeader, secret)`.
Returns false (never throws) on a missing header, a malformed header, or a
digest mismatch; otherwise compares the carried digest against the
recomputed one without early exit. -/
def verify (rawBody : String) (signatureHeader : Option String)
    (secret : String) : Bool :=
  match signatureHeader with
  | none => false
  | some h =>
    match sigTagged h.data with
    | none => false
    | some carried => ctEqList carried (hmacDigest secret rawBody)

/-- A single-byte mutation of a body: the character at one index replaced. -/
def mutateAt (body : String) (i : Nat) (c : Char) : String :=
  String.mk (body.data.set i c)

theorem mem_zip_self {α : Type} (xs : List α) :
    ∀ p ∈ xs.zip xs, p.1 = p.2 := by
  induction xs with
  | nil => intro p hp; simp at hp
  | cons x xs ih =>
    intro p hp
    rcases List.mem_cons.mp hp with hp | hp
    · subst hp; rfl
    · exact ih _ hp

theorem ctEqList_eq_true_iff (xs ys : List Char) :
    ctEqList xs ys = true ↔ xs = ys := by
  unfold ctEqList
  rw [Bool.and_eq_true, beq_iff_eq, beq_iff_eq, List.countP_eq_zero]
  constructor
  · rintro ⟨hlen, hall⟩
    apply List.ext_getElem hlen
    intro i h1 h2
    have hi : i < (xs.zip ys).length := by
      rw [List.length_zip]; omega
    have hmem : (xs.zip ys)[i] ∈ xs.zip ys := List.getElem_mem hi
    have hne := hall _ hmem
    rw [List.getElem_zip] at hne
    simpa using hne
  · rintro rfl
    refine ⟨rfl, ?_⟩
    intro p hp
    have := mem_zip_self xs p hp
    simp [this]

theorem hmacDigest_inj_body (secret : String) {b b' : String}
    (h : hmacDigest secret b = hmacDigest secret b') : b = b' := by
  unfold hmacDigest at h
  exact String.ext (List.append_cancel_left h)

/-- Round trip: a body verifies against its own signature. -/
theorem verify_sign_roundtrip (B S : String) :
    verify B (some (sign B S)) S = true := by
  simp [verify, sign, sigTagged, ctEqList_eq_true_iff]

/-! ## JSON payloads (spec §3, §4.5: parse the verified body into a payload) -/

/-- A JSON value; numbers are integers, which covers every payload field
the program reads (`installation.id`, `issue.number`). -/
inductive Json where
  | null : Json
  | bool (b : Bool) : Json
  | num (n : Int) : Json
  | str (s : String) : Json
  | arr (elems : List Json) : Json
  | obj (fields : List (String × Json)) : Json
deriving Repr

def skipWs : List Char → List Char
  | [] => []
  | c :: cs =>
    if c = ' ' ∨ c = '\n' ∨ c = '\t' ∨ c = '\r' then skipWs cs else c :: cs

/-- Scan a string literal after its opening quote; escape sequences are
rejected (no payload in this development contains one). -/
def scanStringLit : List Char → Option (List Char × List Char)
  | [] => none
  | c :: cs =>
    if c = '"' then some ([], cs)
    else if c = '\\' then none
    else match scanStringLit cs with
      | some (s, rest) => some (c :: s, rest)
      | none => none

def scanDigits (acc : Nat) : List Char → Nat × List Char
  | [] => (acc, [])
  | c :: cs =>
    if c.isDigit then scanDigits (acc * 10 + (c.toNat - 48)) cs
    else (acc, c :: cs)

def scanNum : List Char → Option (Int × List Char)
  | [] => none
  | '-' :: rest =>
    match rest with
    | [] => none
    | c :: _ =>
      if c.isDigit then
        let p := scanDigits 0 rest
        some (-(p.1 : Int), p.2)
      else none
  | c :: cs =>
    if c.isDigit then
      let p := scanDigits 0 (c :: cs)
      some ((p.1 : Int), p.2)
    else none

mutual

/-- Modelled from the spec: §4.5's JSON payload parsing, fuel-bounded. -/
def parseVal (fuel : Nat) (cs : List Char) : Option (Json × List Char) :=
  match fuel with
  | 0 => none
  | fuel' + 1 =>
    match skipWs cs with
    | '{' :: rest => parseObjBody fuel' rest
    | '[' :: rest => parseArrBody fuel' rest
    | '"' :: rest =>
      match scanStringLit rest with
      | some (s, r) => some (Json.str (String.mk s), r)
      | none => none
    | 't' :: 'r' :: 'u' :: 'e' :: rest => some (Json.bool true, rest)
    | 'f' :: 'a' :: 'l' :: 's' :: 'e' :: rest => some (Json.bool false, rest)
    | 'n' :: 'u' :: 'l' :: 'l' :: rest => some (Json.null, rest)
    | other =>
      match scanNum other with
      | some (n, r) => some (Json.num n, r)
      | none => none

/-- Parse what follows an object's opening brace. -/
def parseObjBody (fuel : Nat) (cs : List Char) : Option (Json × List Char) :=
  match fuel with
  | 0 => none
  | fuel' + 1 =>
    match skipWs cs with
    | '}' :: rest => some (Json.obj [], rest)
    | cs' => parseMembers fuel' cs' []

/-- Parse the members of a non-empty object. -/
def parseMembers (fuel : Nat) (cs : List Char)
    (acc : List (String × Json)) : Option (Json × List Char) :=
  match fuel with
  | 0 => none
  | fuel' + 1 =>
    match skipWs cs with
    | '"' :: rest =>
      match scanStringLit rest with
      | none => none
      | some (key, rest2) =>
        match skipWs rest2 with
        | ':' :: rest3 =>
          match parseVal fuel' rest3 with
          | none => none
          | some (v, rest4) =>
            match skipWs rest4 with
            | ',' :: rest5 =>
              parseMembers fuel' rest5 (acc ++ [(String.mk key, v)])
            | '}' :: rest5 =>
              some (Json.obj (acc ++ [(String.mk key, v)]), rest5)
            | _ => none
        | _ => none
    | _ => none

/-- Parse what follows an array's opening bracket. -/
def parseArrBody (fuel : Nat) (cs : List Char) : Option (Json × List Char) :=
  match fuel with
  | 0 => none
  | fuel' + 1 =>
    match skipWs cs with
    | ']' :: rest => some (Json.arr [], rest)
    | cs' => parseElems fuel' cs' []

/-- Parse the elements of a non-empty array. -/
def parseElems (fuel : Nat) (cs : List Char)
    (acc : List Json) : Option (Json × List Char) :=
  match fuel with
  | 0 => none
  | fuel' + 1 =>
    match parseVal fuel' cs with
    | none => none
    | some (v, rest) =>
      match skipWs rest with
      | ',' :: rest2 => parseElems fuel' rest2 (acc ++ [v])
      | ']' :: rest2 => some (Json.arr (acc ++ [v]), rest2)
      | _ => none

end

/-- Parse a whole body: the parse must consume everything but whitespace. -/
def parseBody (body : String) : Option Json :=
  match parseVal (2 * body.length + 4) body.data with
  | some (v, rest) => if skipWs rest = [] then some v else none
  | none => none

/-- Property lookup on a JSON value: `none` when the value is not an
object or lacks the key (JavaScript's `undefined`). -/
def Json.getField : Json → String → Option Json
  | Json.obj fields, k => fields.lookup k
  | _, _ => none

/-! ## The `issues` handler (src/index.js lines 28–41) -/

/-- The error a handler can raise: in JavaScript, reading a property of
`undefined` throws a `TypeError`. -/
inductive HandlerError where
  | typeError : HandlerError
deriving DecidableEq, Repr

/-- JavaScript property access `v.k`: throws a `TypeError` when `v` is
`undefined`; yields `undefined` when `v` lacks the key. -/
def getProp : Option Json → String → Except HandlerError (Option Json)
  | none, _ => Except.error HandlerError.typeError
  | some j, k => Except.ok (j.getField k)

/-- The outbound effects the handler can perform, carrying the raw
JavaScript values the source passes (possibly `undefined`). -/
inductive Effect where
  | requestToken (installationId : Option Json) : Effect
  | createComment (owner repo issueNumber : Option Json) (body : String) :
      Effect

/-- The guard `event.payload.action === 'opened'` of src/index.js line
30: JavaScript strict equality against the string literal. -/
def actionIsOpened (payload : Json) : Bool :=
  match payload.getField "action" with
  | some (Json.str a) => a == "opened"
  | _ => false

/-- The `issues` handler of src/index.js lines 28–41: when
`payload.action === 'opened'`, it reads `payload.installation.id`,
authenticates as that installation (`integration.asInstallation`), and
creates the welcome comment with `repository.owner.login`,
`repository.name` and `issue.number`; otherwise it does nothing.  The
property reads inside the `.then` callback are modelled in the same
error monad, in the order the source evaluates them. -/
def issuesHandler (payload : Json) : Except HandlerError (List Effect) :=
  if actionIsOpened payload then do
    let instId ← getProp (payload.getField "installation") "id"
    let ownerObj ← getProp (payload.getField "repository") "owner"
    let owner ← getProp ownerObj "login"
    let repo ← getProp (payload.getField "repository") "name"
    let issueNumber ← getProp (payload.getField "issue") "number"
    Except.ok [Effect.requestToken instId,
      Effect.createComment owner repo issueNumber
        "Welcome to the robot uprising."]
  else Except.ok []

/-- The handler registration table of src/index.js: one handler, for the
webhook event type `issues`.  (The `error` listener on lines 24–26 is the
library's verification-failure channel, not a webhook event type, so it
never appears in event dispatch.) -/
def handlerTable :
    List (String × (Json → Except HandlerError (List Effect))) :=
  [("issues", issuesHandler)]

/-! ## Event router (spec §4.2) -/

/-- Modelled from the spec: §4.2's dispatch.  Every handler registered for
the event type is invoked, in registration order; a handler that signals
failure does not stop invocation of subsequent handlers (each result is
collected independently). -/
def dispatch
    (table : List (String × (Json → Except HandlerError (List Effect))))
    (eventType : String) (payload : Json) :
    List (Except HandlerError (List Effect)) :=
  (table.filter (fun p => p.1 == eventType)).map (fun p => p.2 payload)

/-! ## Gateway (spec §4.5) -/

/-- The gateway's response directive. -/
inductive Directive where
  | ok : Directive
  | rejected (reason : String) : Directive
  | notFound : Directive
deriving DecidableEq, Repr

/-- The HTTP status each directive is sent with: `ok` is 2xx, `rejected`
is 400 (spec: must not be 2xx), `notFound` is the 404 of src/index.js
lines 10–13. -/
def statusOf : Directive → Nat
  | Directive.ok => 200
  | Directive.rejected _ => 400
  | Directive.notFound => 404

/-- An inbound webhook request (spec §3 WebhookRequest): method, raw
body, signature header and event-type header. -/
structure WebhookRequest where
  method : String
  rawBody : String
  signatureHeader : Option String
  eventHeader : Option String

/-- Modelled from the spec: §4.5's `handle`.  Non-POST requests yield
`ok` with no body processing; POST requests run the Signature Verifier
and on failure yield `rejected "bad signature"` with no handler invoked;
on success the body is parsed and dispatched, and `ok` is returned
regardless of handler outcomes (a parse failure drops the event and
still returns `ok`, §7 ParseError).  The second component records the
handler invocations with their results. -/
def handle (secret : String)
    (table : List (String × (Json → Except HandlerError (List Effect))))
    (req : WebhookRequest) :
    Directive × List (Except HandlerError (List Effect)) :=
  if req.method = "POST" then
    if verify req.rawBody req.signatureHeader secret then
      match req.eventHeader, parseBody req.rawBody with
      | some evType, some payload =>
        (Directive.ok, dispatch table evType payload)
      | _, _ => (Directive.ok, [])
    else (Directive.rejected "bad signature", [])
  else (Directive.ok, [])

/-! ## Startup configuration (src/index.js lines 4–7 and 19–22) -/

/-- The environment variables src/index.js reads; a `none` field is an
unset variable. -/
structure Env where
  WEBHOOK_SECRET : Option String
  PORT : Option String
  INTEGRATION_ID : Option String
  PRIVATE_KEY : Option String

/-- JavaScript `a || b` on an environment variable: the default is taken
when the variable is unset or the empty string (both falsy). -/
def jsOr (o : Option String) (d : String) : String :=
  match o with
  | some s => if s = "" then d else s
  | none => d

/-- The configuration assembled at startup: the webhook handler's path
and secret (lines 4–7), the integration's id and key material
(lines 19–22), and the listen port (line 14). -/
structure Config where
  path : String
  secret : String
  integrationId : Option String
  cert : String
  port : String

/-- `process.env.PRIVATE_KEY || fs.readFileSync('private-key.pem')` of
src/index.js line 21: the environment variable when set and non-empty
(JavaScript truthiness), else the file contents, else the exception
`readFileSync` throws when the file does not exist. -/
def readCert (env : Env) (pemFile : Option String) : Except String String :=
  let readPem : Except String String :=
    match pemFile with
    | some contents => Except.ok contents
    | none =>
      Except.error "ENOENT: no such file or directory, open private-key.pem"
  match env.PRIVATE_KEY with
  | some k => if k = "" then readPem else Except.ok k
  | none => readPem

/-- Startup of src/index.js, as a function of the environment and of the
contents of `private-key.pem` (`none` when the file does not exist).
The secret falls back to the literal `'development'`; the key material
falls back to `fs.readFileSync('private-key.pem')`, which throws when
the file is missing — the only fatal startup path. -/
def startup (env : Env) (pemFile : Option String) : Except String Config :=
  match readCert env pemFile with
  | Except.error e => Except.error e
  | Except.ok cert =>
    Except.ok
      { path := "/", secret := jsOr env.WEBHOOK_SECRET "development",
        integrationId := env.INTEGRATION_ID, cert := cert,
        port := jsOr env.PORT "7777" }

/-! ## Installation token cache (spec §4.4), sequential view -/

/-- An installation-scoped access token with its expiry timestamp. -/
structure InstallationToken where
  token : String
  expiresAt : Nat
deriving DecidableEq, Repr

/-- Refresh step of §4.4: exchange an assertion for a fresh token; on
success the cache entry is replaced, on failure the stale entry is
dropped (the cache is never poisoned, §4.4 step 5) and the error
propagates.  The middle component counts network calls (always 1 here). -/
def refreshToken (exchange : Nat → Except String InstallationToken)
    (cache : List (Nat × InstallationToken)) (id : Nat) :
    Except String InstallationToken × Nat ×
      List (Nat × InstallationToken) :=
  match exchange id with
  | Except.ok t =>
    (Except.ok t, 1, (id, t) :: cache.filter (fun p => p.1 ≠ id))
  | Except.error e =>
    (Except.error e, 1, cache.filter (fun p => p.1 ≠ id))

/-- Modelled from the spec: §4.4 `getToken`, sequential view (the
concurrent single-flight behaviour is modelled separately below).  A
cached entry with `expiry - now > safetyMargin` is returned with no
network call; otherwise exactly one refresh runs.  The middle component
of the result counts the token-exchange network calls made. -/
def getToken (exchange : Nat → Except String InstallationToken)
    (safetyMargin now : Nat) (cache : List (Nat × InstallationToken))
    (id : Nat) :
    Except String InstallationToken × Nat ×
      List (Nat × InstallationToken) :=
  match cache.lookup id with
  | some t =>
    if t.expiresAt - now > safetyMargin then (Except.ok t, 0, cache)
    else refreshToken exchange cache id
  | none => refreshToken exchange cache id

/-! ## Installation token cache (spec §4.4 and §5), concurrent view

A small transition system over the steps of §4.4's
check-then-refresh-with-single-flight, to settle the concurrency
properties by exhausting every interleaving of two callers. -/

/-- The program counter of one `getToken` caller: the initial cache
check, waiting for the per-installation lock, the re-check under the
lock, the in-flight token exchange, and completion. -/
inductive CachePc where
  | start : CachePc
  | wantLock : CachePc
  | locked : CachePc
  | exchanging : CachePc
  | finished : CachePc
deriving DecidableEq, Repr

/-- One caller: its target installation id, program counter, and the
number of token-exchange network calls it has made. -/
structure CacheTask where
  instId : Nat
  pc : CachePc
  calls : Nat
deriving DecidableEq, Repr

/-- The shared state: the callers, the set of installation ids holding a
fresh cached token, and the set of installation ids whose
per-installation lock is held. -/
structure CacheSys where
  tasks : List CacheTask
  freshIds : List Nat
  lockedIds : List Nat
deriving DecidableEq, Repr

/-- Modelled from the spec: one atomic step of caller `i` in §4.4's
algorithm — cache check (step 1/2), lock acquisition (step 3, enabled
only when the per-installation lock is free), re-check under the lock
(step 4), and completion of the in-flight exchange, which stores the
token, releases the lock and returns (steps 4–5).  `none` when the
caller is finished or blocked on the lock. -/
def cacheStep (s : CacheSys) (i : Nat) : Option CacheSys :=
  match s.tasks.get? i with
  | none => none
  | some t =>
    match t.pc with
    | CachePc.finished => none
    | CachePc.start =>
      if s.freshIds.contains t.instId then
        some { s with tasks :=
                 s.tasks.set i { t with pc := CachePc.finished } }
      else
        some { s with tasks :=
                 s.tasks.set i { t with pc := CachePc.wantLock } }
    | CachePc.wantLock =>
      if s.lockedIds.contains t.instId then none
      else
        some
          { s with
            lockedIds := t.instId :: s.lockedIds,
            tasks := s.tasks.set i { t with pc := CachePc.locked } }
    | CachePc.locked =>
      if s.freshIds.contains t.instId then
        some
          { s with
            lockedIds := s.lockedIds.erase t.instId,
            tasks := s.tasks.set i { t with pc := CachePc.finished } }
      else
        some { s with tasks :=
                 s.tasks.set i { t with pc := CachePc.exchanging } }
    | CachePc.exchanging =>
      some
        { s with
          freshIds := t.instId :: s.freshIds,
          lockedIds := s.lockedIds.erase t.instId,
          tasks := s.tasks.set i
            { t with
              pc := CachePc.finished,
              calls := t.calls + 1 } }

/-- All states reachable by advancing any one enabled caller. -/
def cacheSuccs (s : CacheSys) : List CacheSys :=
  (List.range s.tasks.length).filterMap (cacheStep s)

/-- All maximal executions from `s`, fuel-bounded: the terminal state of
each interleaving (a state is returned as-is when the fuel runs out, so
an insufficient fuel cannot hide a violation from the checks below). -/
def cacheTerminals (fuel : Nat) (s : CacheSys) : List CacheSys :=
  match fuel with
  | 0 => [s]
  | fuel' + 1 =>
    match cacheSuccs s with
    | [] => [s]
    | ss => (ss.map (cacheTerminals fuel')).flatten

def allFinished (s : CacheSys) : Bool :=
  s.tasks.all (fun t => t.pc == CachePc.finished)

def totalCalls (s : CacheSys) : Nat :=
  (s.tasks.map (fun t => t.calls)).sum

/-! ## Concrete scenarios -/

/-- The webhook body of the spec's end-to-end scenario (§8). -/
def c1Body : String :=
  "\x7b\"action\":\"opened\",\"installation\":\x7b\"id\":42\x7d,\"repository\":\x7b\"owner\":\x7b\"login\":\"o\"\x7d,\"name\":\"r\"\x7d,\"issue\":\x7b\"number\":7,\"title\":\"t\"\x7d\x7d"

/-- A POST carrying `c1Body`, the event-type header `issues`, and a
correct signature for secret `S`. -/
def c1Request (S : String) : WebhookRequest :=
  { method := "POST", rawBody := c1Body,
    signatureHeader := some (sign c1Body S),
    eventHeader := some "issues" }

/-- The parse of `c1Body`. -/
def c1Payload : Json :=
  Json.obj
    [("action", Json.str "opened"),
     ("installation", Json.obj [("id", Json.num 42)]),
     ("repository",
      Json.obj
        [("owner", Json.obj [("login", Json.str "o")]),
         ("name", Json.str "r")]),
     ("issue", Json.obj [("number", Json.num 7), ("title", Json.str "t")])]

/-- Two concurrent `getToken` callers for the same installation id,
starting with no cached token. -/
def c7SameId : CacheSys :=
  { tasks := [⟨5, CachePc.start, 0⟩, ⟨5, CachePc.start, 0⟩],
    freshIds := [], lockedIds := [] }

/-- Two concurrent `getToken` callers for distinct installation ids,
starting with no cached tokens. -/
def c7DistinctIds : CacheSys :=
  { tasks := [⟨3, CachePc.start, 0⟩, ⟨4, CachePc.start, 0⟩],
    freshIds := [], lockedIds := [] }

/-! ## Helper lemmas -/

theorem handle_post_verified (secret : String)
    (table : List (String × (Json → Except HandlerError (List Effect))))
    (req : WebhookRequest) (hm : req.method = "POST")
    (hv : verify req.rawBody req.signatureHeader secret = true) :
    handle secret table req =
      match req.eventHeader, parseBody req.rawBody with
      | some evType, some payload =>
        (Directive.ok, dispatch table evType payload)
      | _, _ => (Directive.ok, []) := by
  unfold handle
  rw [hm, hv]
  simp

/-! ## Claim theorems -/

set_option maxRecDepth 100000

/-- C1: a POST with a correct signature, event-type header `issues` and
the scenario body yields the `ok` directive, invokes the registered
`issues` handler exactly once (the invocation list is a singleton), and
that handler observes `installation.id == 42` and `issue.number == 7`:
it requests a token for installation 42 and issues a create-comment call
with owner `"o"`, repo `"r"` and issue number 7. -/
theorem C1_issues_roundtrip (S : String) :
    handle S handlerTable (c1Request S) =
      (Directive.ok,
       [Except.ok
          [Effect.requestToken (some (Json.num 42)),
           Effect.createComment (some (Json.str "o")) (some (Json.str "r"))
             (some (Json.num 7)) "Welcome to the robot uprising."]]) := by
  rw [handle_post_verified S handlerTable (c1Request S) rfl
    (verify_sign_roundtrip c1Body S)]
  rfl

/-- C3: a POST whose signature fails verification yields the `rejected`
directive carrying "bad signature", whose status is not 2xx, and no
registered event handler is invoked (the invocation list is empty). -/
theorem C3_bad_signature_rejected (secret : String)
    (table : List (String × (Json → Except HandlerError (List Effect))))
    (req : WebhookRequest) (hm : req.method = "POST")
    (hv : verify req.rawBody req.signatureHeader secret = false) :
    handle secret table req = (Directive.rejected "bad signature", []) ∧
    ¬(200 ≤ statusOf (handle secret table req).1 ∧
      statusOf (handle secret table req).1 < 300) := by
  have h : handle secret table req =
      (Directive.rejected "bad signature", []) := by
    unfold handle
    rw [hm, hv]
    simp
  refine ⟨h, ?_⟩
  rw [h]
  decide

/-- C4: a non-POST request yields the `ok` directive with no handler
invoked, and the response does not depend on the body in any way (no
body processing or parsing). -/
theorem C4_non_post_ok (secret : String)
    (table : List (String × (Json → Except HandlerError (List Effect))))
    (req : WebhookRequest) (hm : req.method ≠ "POST") :
    handle secret table req = (Directive.ok, []) ∧
    ∀ b : String,
      handle secret table { req with rawBody := b } = (Directive.ok, []) := by
  constructor
  · unfold handle
    rw [if_neg hm]
  · intro b
    unfold handle
    rw [if_neg hm]

/-- C2: signing and verifying round-trip — `verify(B, sign(B,S), S)` is
true for all bodies and secrets; verifying any single-byte mutation of
the body against the original signature is false; and verify returns
false (it is a total function, so it never throws) on a missing header
and on any malformed header (one not carrying the algorithm tag). -/
theorem C2_verify_sign_properties (B S : String) :
    verify B (some (sign B S)) S = true ∧
    verify B none S = false ∧
    (∀ h : String, sigTagged h.data = none → verify B (some h) S = false) ∧
    (∀ (i : Nat) (c0 c : Char), B.data.get? i = some c0 → c ≠ c0 →
      verify (mutateAt B i c) (some (sign B S)) S = false) := by
  refine ⟨verify_sign_roundtrip B S, rfl, ?_, ?_⟩
  · intro h hh
    have hv : verify B (some h) S =
        match sigTagged h.data with
        | none => false
        | some carried => ctEqList carried (hmacDigest S B) := rfl
    rw [hv, hh]
  · intro i c0 c hget hne
    have hlt : i < B.data.length := by
      by_contra hge
      push_neg at hge
      rw [List.get?_eq_none.mpr hge] at hget
      exact Option.noConfusion hget
    have hv : verify (mutateAt B i c) (some (sign B S)) S =
        ctEqList (hmacDigest S B) (hmacDigest S (mutateAt B i c)) := rfl
    rw [hv]
    rcases Bool.eq_false_or_eq_true
      (ctEqList (hmacDigest S B) (hmacDigest S (mutateAt B i c))) with ht | hf
    swap
    · exact hf
    · exfalso
      have heq := (ctEqList_eq_true_iff _ _).mp ht
      have hBB : B = mutateAt B i c := hmacDigest_inj_body S heq
      have hmut : (mutateAt B i c).data.get? i = some c :=
        List.get?_set_eq_of_lt c hlt
      rw [← hBB, hget] at hmut
      exact hne (Option.some.inj hmut).symm

/-- C8: a verified POST whose payload parses yields the `ok` directive
regardless of handler outcomes: the gateway dispatches to every handler
registered for the event type, each invocation's result sits at its
registration position independently of what the other handlers return,
and the directive is `ok` whatever those results are. -/
theorem C8_ok_regardless_of_handlers (secret : String)
    (table : List (String × (Json → Except HandlerError (List Effect))))
    (req : WebhookRequest) (evType : String) (payload : Json)
    (hm : req.method = "POST")
    (hv : verify req.rawBody req.signatureHeader secret = true)
    (he : req.eventHeader = some evType)
    (hp : parseBody req.rawBody = some payload) :
    handle secret table req = (Directive.ok, dispatch table evType payload) ∧
    (dispatch table evType payload).length =
      (table.filter (fun p => p.1 == evType)).length ∧
    ∀ i : Nat, (dispatch table evType payload).get? i =
      ((table.filter (fun p => p.1 == evType)).get? i).map
        (fun p => p.2 payload) := by
  refine ⟨?_, by simp [dispatch], ?_⟩
  · rw [handle_post_verified secret table req hm hv, he, hp]
  · intro i
    simp [dispatch]

/-- C9: a verified `issues` event whose action is not `opened` makes the
handler perform no outbound effect at all — no token request, no
comment-creation call (and no error either). -/
theorem C9_non_opened_no_effect (payload : Json)
    (h : actionIsOpened payload = false) :
    issuesHandler payload = Except.ok [] := by
  unfold issuesHandler
  rw [h]
  rfl

/-- C10: when the action is `opened`, the handler dereferences
`payload.installation.id` unconditionally: a payload without an
`installation` member makes the handler raise a `TypeError` instead of
dropping the event, so the handler is safe only when `installation` is
present. -/
theorem C10_missing_installation_throws (payload : Json)
    (ho : actionIsOpened payload = true)
    (hi : payload.getField "installation" = none) :
    issuesHandler payload = Except.error HandlerError.typeError := by
  unfold issuesHandler
  rw [ho, hi]
  rfl

/-- C5 fails on the code: an environment with no webhook secret (but key
material present) starts up successfully, falling back to the literal
secret `development` — an absent secret is not a fatal startup
condition in src/index.js lines 4–7. -/
theorem C5_counterexample_missing_secret_not_fatal :
    Env.WEBHOOK_SECRET
        { WEBHOOK_SECRET := none, PORT := none, INTEGRATION_ID := some "1",
          PRIVATE_KEY := some "keydata" } = none ∧
    startup
        { WEBHOOK_SECRET := none, PORT := none, INTEGRATION_ID := some "1",
          PRIVATE_KEY := some "keydata" } none =
      Except.ok
        { path := "/", secret := "development", integrationId := some "1",
          cert := "keydata", port := "7777" } :=
  ⟨rfl, rfl⟩

/-- C5 amended: only missing private-key material is fatal at startup —
when `PRIVATE_KEY` is unset (or empty, which JavaScript treats as
falsy) and `private-key.pem` does not exist, `fs.readFileSync` throws
and startup fails immediately.  A missing webhook secret is not fatal:
every successful startup with the secret unset runs with the fallback
secret `development`. -/
theorem C5_startup_amended (env : Env) (pem : Option String) :
    (env.PRIVATE_KEY = none ∨ env.PRIVATE_KEY = some "" → pem = none →
      startup env pem =
        Except.error
          "ENOENT: no such file or directory, open private-key.pem") ∧
    (env.WEBHOOK_SECRET = none → ∀ cfg : Config,
      startup env pem = Except.ok cfg → cfg.secret = "development") := by
  constructor
  · intro hk hpem
    have hcert : readCert env pem =
        Except.error
          "ENOENT: no such file or directory, open private-key.pem" := by
      unfold readCert
      rcases hk with hk | hk <;> rw [hk, hpem] <;> rfl
    unfold startup
    rw [hcert]
  · intro hs cfg hok
    unfold startup at hok
    cases hcert : readCert env pem with
    | error e =>
      rw [hcert] at hok
      exact Except.noConfusion hok
    | ok cert =>
      rw [hcert] at hok
      dsimp only at hok
      have hcfg := (Except.ok.inj hok).symm
      rw [hcfg]
      simp [jsOr, hs]

/-- C6: `getToken` never hands a caller a token within the safety margin
of its expiry (given the platform returns fresh tokens on exchange): a
cached token with `expiry - now > safetyMargin` is returned as-is with
zero network calls, while a stale or absent entry triggers exactly one
refresh before the result is returned. -/
theorem C6_token_safety_margin
    (exchange : Nat → Except String InstallationToken)
    (margin now : Nat) (cache : List (Nat × InstallationToken)) (id : Nat)
    (hex : ∀ j t, exchange j = Except.ok t → t.expiresAt - now > margin) :
    (∀ t, (getToken exchange margin now cache id).1 = Except.ok t →
      t.expiresAt - now > margin) ∧
    (∀ t0, cache.lookup id = some t0 → t0.expiresAt - now > margin →
      getToken exchange margin now cache id = (Except.ok t0, 0, cache)) ∧
    (∀ t0, cache.lookup id = some t0 → t0.expiresAt - now ≤ margin →
      (getToken exchange margin now cache id).2.1 = 1) ∧
    (cache.lookup id = none →
      (getToken exchange margin now cache id).2.1 = 1) := by
  have hrefresh_ok : ∀ t, (refreshToken exchange cache id).1 = Except.ok t →
      t.expiresAt - now > margin := by
    intro t h
    unfold refreshToken at h
    cases hx : exchange id with
    | ok t' =>
      rw [hx] at h
      simp at h
      rw [← h]
      exact hex id t' hx
    | error e =>
      rw [hx] at h
      simp at h
  have hrefresh_calls : (refreshToken exchange cache id).2.1 = 1 := by
    unfold refreshToken
    cases hx : exchange id <;> rfl
  refine ⟨?_, ?_, ?_, ?_⟩
  · intro t h
    unfold getToken at h
    cases hl : cache.lookup id with
    | none =>
      rw [hl] at h
      exact hrefresh_ok t h
    | some t0 =>
      rw [hl] at h
      dsimp only at h
      by_cases hfr : t0.expiresAt - now > margin
      · rw [if_pos hfr] at h
        simp at h
        rw [← h]
        exact hfr
      · rw [if_neg hfr] at h
        exact hrefresh_ok t h
  · intro t0 hl hfr
    unfold getToken
    rw [hl]
    dsimp only
    rw [if_pos hfr]
  · intro t0 hl hfr
    unfold getToken
    rw [hl]
    dsimp only
    rw [if_neg (by omega : ¬ t0.expiresAt - now > margin)]
    exact hrefresh_calls
  · intro hl
    unfold getToken
    rw [hl]
    exact hrefresh_calls

/-- C7: single-flight — over every interleaving of two concurrent
`getToken` callers for the same installation id starting from an empty
cache, both callers complete and exactly one token-exchange network
call is made in total (the other caller is served the refreshed cache
entry); and two concurrent callers for distinct installation ids never
block each other: in every interleaving both complete, each with its
own single exchange. -/
theorem C7_single_flight :
    ((cacheTerminals 12 c7SameId).all
      (fun s => allFinished s && totalCalls s == 1)) = true ∧
    ((cacheTerminals 12 c7DistinctIds).all
      (fun s => allFinished s && totalCalls s == 2 &&
        s.tasks.all (fun t => t.calls == 1))) = true := by
  constructor <;> decide

/-! ## Witnesses: the hypothesis-bearing claim theorems evaluated at
concrete inputs -/

/-- A tampered request: the signature header carries a wrong digest. -/
def c3Req : WebhookRequest :=
  { method := "POST", rawBody := "x", signatureHeader := some "sha1=0",
    eventHeader := some "issues" }

/-- A GET request. -/
def c4Req : WebhookRequest :=
  { method := "GET", rawBody := "ignored", signatureHeader := none,
    eventHeader := none }

/-- An environment with neither `PRIVATE_KEY` nor the secret set. -/
def c5EnvNoKey : Env :=
  { WEBHOOK_SECRET := some "s", PORT := none, INTEGRATION_ID := none,
    PRIVATE_KEY := none }

/-- An environment with key material but no webhook secret. -/
def c5EnvNoSecret : Env :=
  { WEBHOOK_SECRET := none, PORT := none, INTEGRATION_ID := some "1",
    PRIVATE_KEY := some "keydata" }

/-- A token-exchange stub always returning a token expiring at 1000. -/
def c6Exchange : Nat → Except String InstallationToken :=
  fun _ => Except.ok ⟨"fresh", 1000⟩

/-- A handler that always fails, to witness failure isolation. -/
def c8FailingHandler : Json → Except HandlerError (List Effect) :=
  fun _ => Except.error HandlerError.typeError

/-- A table with a failing handler registered before the real one. -/
def c8Table : List (String × (Json → Except HandlerError (List Effect))) :=
  [("issues", c8FailingHandler), ("issues", issuesHandler)]

/-- The scenario request of C1, signed with the secret `k`. -/
def c8Req : WebhookRequest :=
  { method := "POST", rawBody := c1Body,
    signatureHeader := some (sign c1Body "k"),
    eventHeader := some "issues" }

theorem C2_witness :
    verify "ab" (some (sign "ab" "k")) "k" = true ∧
    verify "ab" none "k" = false ∧
    verify "ab" (some "bogus") "k" = false ∧
    verify (mutateAt "ab" 0 'z') (some (sign "ab" "k")) "k" = false :=
  ⟨(C2_verify_sign_properties "ab" "k").1,
   (C2_verify_sign_properties "ab" "k").2.1,
   (C2_verify_sign_properties "ab" "k").2.2.1 "bogus" rfl,
   (C2_verify_sign_properties "ab" "k").2.2.2 0 'a' 'z' rfl (by decide)⟩

theorem C3_witness :
    handle "k" handlerTable c3Req = (Directive.rejected "bad signature", []) ∧
    ¬(200 ≤ statusOf (handle "k" handlerTable c3Req).1 ∧
      statusOf (handle "k" handlerTable c3Req).1 < 300) :=
  C3_bad_signature_rejected "k" handlerTable c3Req rfl rfl

theorem C4_witness :
    handle "k" handlerTable c4Req = (Directive.ok, []) ∧
    handle "k" handlerTable { c4Req with rawBody := "other" } =
      (Directive.ok, []) :=
  ⟨(C4_non_post_ok "k" handlerTable c4Req (by decide)).1,
   (C4_non_post_ok "k" handlerTable c4Req (by decide)).2 "other"⟩

theorem C5_witness :
    startup c5EnvNoKey none =
      Except.error "ENOENT: no such file or directory, open private-key.pem" ∧
    Config.secret
      { path := "/", secret := "development", integrationId := some "1",
        cert := "keydata", port := "7777" } = "development" :=
  ⟨(C5_startup_amended c5EnvNoKey none).1 (Or.inl rfl) rfl,
   (C5_startup_amended c5EnvNoSecret none).2 rfl
     { path := "/", secret := "development", integrationId := some "1",
       cert := "keydata", port := "7777" } rfl⟩

theorem C6_witness :
    getToken c6Exchange 60 100 [(5, ⟨"cached", 1000⟩)] 5 =
      (Except.ok ⟨"cached", 1000⟩, 0, [(5, ⟨"cached", 1000⟩)]) ∧
    (getToken c6Exchange 60 100 [(5, ⟨"stale", 120⟩)] 5).2.1 = 1 ∧
    (getToken c6Exchange 60 100 [] 5).2.1 = 1 := by
  have hex : ∀ j t, c6Exchange j = Except.ok t → t.expiresAt - 100 > 60 := by
    intro j t h
    injection h with h1
    rw [← h1]
    decide
  refine ⟨?_, ?_, ?_⟩
  · exact (C6_token_safety_margin c6Exchange 60 100 [(5, ⟨"cached", 1000⟩)] 5
      hex).2.1 ⟨"cached", 1000⟩ rfl (by decide)
  · exact (C6_token_safety_margin c6Exchange 60 100 [(5, ⟨"stale", 120⟩)] 5
      hex).2.2.1 ⟨"stale", 120⟩ rfl (by decide)
  · exact (C6_token_safety_margin c6Exchange 60 100 [] 5 hex).2.2.2 rfl

theorem C8_witness :
    handle "k" c8Table c8Req = (Directive.ok, dispatch c8Table "issues" c1Payload) ∧
    (dispatch c8Table "issues" c1Payload).get? 0 =
      ((c8Table.filter (fun p => p.1 == "issues")).get? 0).map
        (fun p => p.2 c1Payload) ∧
    (dispatch c8Table "issues" c1Payload).get? 1 =
      ((c8Table.filter (fun p => p.1 == "issues")).get? 1).map
        (fun p => p.2 c1Payload) :=
  ⟨(C8_ok_regardless_of_handlers "k" c8Table c8Req "issues" c1Payload rfl
      (verify_sign_roundtrip c1Body "k") rfl rfl).1,
   (C8_ok_regardless_of_handlers "k" c8Table c8Req "issues" c1Payload rfl
      (verify_sign_roundtrip c1Body "k") rfl rfl).2.2 0,
   (C8_ok_regardless_of_handlers "k" c8Table c8Req "issues" c1Payload rfl
      (verify_sign_roundtrip c1Body "k") rfl rfl).2.2 1⟩

theorem C9_witness :
    issuesHandler (Json.obj [("action", Json.str "closed")]) =
      Except.ok [] :=
  C9_non_opened_no_effect (Json.obj [("action", Json.str "closed")]) rfl

theorem C10_witness :
    issuesHandler (Json.obj [("action", Json.str "opened")]) =
      Except.error HandlerError.typeError :=
  C10_missing_installation_throws (Json.obj [("action", Json.str "opened")])
    rfl rfl

end GitHubApp
